import Mathlib

/-!
Verification of the GFF protein-domain visualizer (gffVisguiPepDomFontStreamlit1.py).

The development shallowly embeds the two components of the program:

* `parse_gff` — the single-pass line parser (`parse_gff` in the source),
  producing domain-match records and the set of polypeptide protein names.
  Python string primitives (`str.strip`, `str.split`, `int`, `dict`) are
  modelled by executable Lean functions over `String`/`List Char`; a Python
  exception (ValueError from `int(...)` or from `dict(...)` on a
  key=value item that does not split in exactly two parts) is modelled as
  `none`, so a failing line makes the whole parse return `none`, exactly as
  the uncaught exception aborts `parse_gff`.

* `plot_domains` — the track renderer, modelled as a pure function from the
  records, the user selections, the shape choice and the color dictionary to
  a `RenderResult`: the informational empty state (`st.info` + early return),
  a KeyError raised by the legend comprehension `domain_colors[domain]`, or
  the figure actually handed to `st.pyplot`, described by the shapes added
  via `ax.add_patch`, the axis limits, the y ticks/labels and the legend.
  Matplotlib floats are modelled as exact rationals.

* `ensure_colors` / `domain_colors_step` — the per-session lazy color
  assignment (`st.session_state.domain_colors`), with the stream of
  `random_color()` results supplied as an oracle `fresh : Nat → String`.
-/

/-! ## Python string primitives, character level -/

/-- Split a character list at every occurrence of `sep`, keeping empty
chunks, as Python's `str.split` with a one-character separator does
(`"".split(c) = ['']`). -/
def splitChars (sep : Char) : List Char → List (List Char)
  | [] => [[]]
  | c :: cs =>
    let rest := splitChars sep cs
    if c = sep then [] :: rest
    else
      match rest with
      | r :: rs => (c :: r) :: rs
      | [] => [[c]]

/-- The whitespace characters removed by Python's `str.strip()` (ASCII part). -/
def isPySpace (c : Char) : Bool :=
  c = ' ' || c = '\t' || c = '\n' || c = '\r' || c = '\x0b' || c = '\x0c'

/-- Python `str.strip()` on a character list. -/
def stripChars (cs : List Char) : List Char :=
  ((cs.dropWhile isPySpace).reverse.dropWhile isPySpace).reverse

/-- Python `line.strip()`. -/
def pyStrip (s : String) : String := String.mk (stripChars s.toList)

/-- Python `s.split(c)` for a one-character separator `c`. -/
def pySplitChar (c : Char) (s : String) : List String :=
  (splitChars c s.toList).map String.mk

/-- Python `c in s` membership of a character in a string. -/
def strContains (s : String) (c : Char) : Bool := s.toList.contains c

/-- Numeric value of a list of decimal digits, most significant first. -/
def digitsVal (ds : List Char) : Nat :=
  ds.foldl (fun acc c => acc * 10 + (c.toNat - '0'.toNat)) 0

/-- Python `int(s)` on the stripped character list: an optional sign followed
by a nonempty run of decimal digits (digit-grouping underscores are not
modelled; none of the inputs considered here use them). `none` models the
`ValueError` raised on any other input. -/
def pyIntChars (cs : List Char) : Option Int :=
  match stripChars cs with
  | '-' :: ds => if ds ≠ [] ∧ ds.all Char.isDigit then some (-(digitsVal ds : Int)) else none
  | '+' :: ds => if ds ≠ [] ∧ ds.all Char.isDigit then some (digitsVal ds : Int) else none
  | ds => if ds ≠ [] ∧ ds.all Char.isDigit then some (digitsVal ds : Int) else none

/-- Python `int(s)` (see `pyIntChars`). -/
def pyInt (s : String) : Option Int := pyIntChars s.toList

/-- Python `dict` insertion: overwrite the value in place if the key is
present, else append the pair at the end (insertion order preserved). -/
def pyDictInsert : List (String × String) → String → String → List (String × String)
  | [], k, v => [(k, v)]
  | (k', v') :: rest, k, v =>
    if k' = k then (k', v) :: rest else (k', v') :: pyDictInsert rest k v

/-- Python `dict(pairs)`: left-to-right insertion, later pairs overwrite. -/
def pyDict (pairs : List (String × String)) : List (String × String) :=
  pairs.foldl (fun d kv => pyDictInsert d kv.1 kv.2) []

/-! ## The parser (`parse_gff` in the source) -/

/-- One `(protein_name, start, end, domain_name)` tuple appended to
`domain_data` for a `protein_match` line. -/
structure FeatureRecord where
  protein : String
  start : Int
  endPos : Int
  domain : String
deriving DecidableEq

/-- Python `item.split('=')` for every attribute item that contains an `'='`,
failing (as Python's `dict(...)` constructor does with a ValueError) when a
split does not have exactly two parts. -/
def splitPairs : List String → Option (List (String × String))
  | [] => some []
  | item :: rest =>
    match pySplitChar '=' item with
    | [k, v] => (splitPairs rest).map (fun ps => (k, v) :: ps)
    | _ => none

/-- Python `dict(item.split('=') for item in items if '=' in item)` on an
already-split list of attribute items. -/
def attrsOfItems (items : List String) : Option (List (String × String)) :=
  (splitPairs (items.filter (fun item => strContains item '='))).map pyDict

/-- Python `dict(item.split('=') for item in fields[8].split(';') if '=' in item)`. -/
def parse_attributes (field : String) : Option (List (String × String)) :=
  attrsOfItems (pySplitChar ';' field)

/-- The fields of a line: `fields = line.strip().split("\t")`. -/
def fieldsOf (line : String) : List String := pySplitChar '\t' (pyStrip line)

/-- Python `line.startswith("##")`. -/
def isComment (line : String) : Bool :=
  match line.toList with
  | '#' :: '#' :: _ => true
  | _ => false

/-- What one iteration of the parse loop does with a line. -/
inductive LineResult where
  /-- The line is skipped: comment, or fewer than 9 tab-separated fields. -/
  | skip : LineResult
  /-- A `polypeptide` line: its protein name is added to `protein_names`. -/
  | poly : String → LineResult
  /-- A `protein_match` line: a record is appended to `domain_data`. -/
  | record : FeatureRecord → LineResult
  /-- A well-formed line of any other feature type: no effect. -/
  | other : LineResult
deriving DecidableEq

/-- One iteration of the loop body of `parse_gff`: comment and short lines
are skipped, then start/end are converted with `int(...)` and the attribute
dict is built (both before the feature-type tests, so either failure aborts
the parse regardless of the feature type), then the feature type is
compared with `"polypeptide"` and `"protein_match"`. -/
def parseLine (line : String) : Option LineResult :=
  if isComment line then some .skip
  else
    let fields := fieldsOf line
    if fields.length < 9 then some .skip
    else
      match pyInt (fields.getD 3 ""), pyInt (fields.getD 4 ""),
            parse_attributes (fields.getD 8 "") with
      | some s, some e, some attrs =>
        let protein_name := fields.getD 0 ""
        let feature_type := fields.getD 2 ""
        if feature_type = "polypeptide" then some (.poly protein_name)
        else if feature_type = "protein_match" then
          some (.record ⟨protein_name, s, e, (attrs.lookup "Name").getD "Unknown"⟩)
        else some .other
      | _, _, _ => none

/-- The parser `parse_gff` over the list of input lines: `none` models the uncaught
exception aborting the whole call; otherwise the ordered record list and
the set of polypeptide protein names are returned. -/
def parse_gff : List String → Option (List FeatureRecord × Finset String)
  | [] => some ([], ∅)
  | l :: ls =>
    match parseLine l with
    | none => none
    | some res =>
      match parse_gff ls with
      | none => none
      | some (recs, pids) =>
        match res with
        | .record r => some (r :: recs, pids)
        | .poly p => some (recs, insert p pids)
        | _ => some (recs, pids)

/-- The record yielded by a line, if any. -/
def lineRec (l : String) : Option FeatureRecord :=
  match parseLine l with
  | some (.record r) => some r
  | _ => none

/-- The protein name a `polypeptide` line contributes, if any. -/
def linePoly (l : String) : Option String :=
  match parseLine l with
  | some (.poly p) => some p
  | _ => none

example : parseLine "##gff-version 3" = some .skip := by decide

example :
    parse_gff ["ProtA\tsrc\tprotein_match\t10\t50\t.\t.\t.\tName=Kinase"] =
      some ([⟨"ProtA", 10, 50, "Kinase"⟩], ∅) := by decide

example :
    parse_gff ["P1\ts\tpolypeptide\t1\t9\t.\t.\t.\tID=p1"] =
      some ([], insert "P1" ∅) := by decide

example : parse_gff ["P\ts\tprotein_match\t1\t2\t.\t.\t.\ta=b=c"] = none := by decide

example : parse_gff ["P\ts\tgene\tX\t2\t.\t.\t.\tk=v"] = none := by decide

/-! ## The renderer (`plot_domains` in the source)

Matplotlib coordinates are modelled as exact rationals. -/

/-- The constant `protein_height = 0.4`. -/
def protein_height : ℚ := 0.4

/-- The constant `protein_gap = 1.0`. -/
def protein_gap : ℚ := 1.0

/-- One patch added to the axes by `ax.add_patch`, with the constructor
arguments of the corresponding matplotlib patch class. -/
inductive Shape where
  /-- A patch `mpatches.Rectangle((x, y), width, height, color=...)`. -/
  | rect : ℚ × ℚ → ℚ → ℚ → String → Shape
  /-- A patch `FancyBboxPatch((x, y), width, height, boxstyle="round,...", color=...)`. -/
  | fancy : ℚ × ℚ → ℚ → ℚ → String → Shape
  /-- A patch `mpatches.Ellipse((cx, cy), width, height, color=...)`. -/
  | ellipse : ℚ × ℚ → ℚ → ℚ → String → Shape
deriving DecidableEq

/-- The color argument of a drawn patch. -/
def Shape.color : Shape → String
  | .rect _ _ _ c => c
  | .fancy _ _ _ c => c
  | .ellipse _ _ _ c => c

/-- The patch the shape branch builds for one row of the filtered frame:
`none` when `shape_choice` matches none of the three `if`/`elif` branches
(no patch is added then). The color is
`domain_colors.get(row["Domain"], "#1f77b4")`. -/
def mkShape (shape_choice : String) (y_position : ℚ)
    (domain_colors : List (String × String)) (r : FeatureRecord) : Option Shape :=
  let width : ℚ := (r.endPos : ℚ) - (r.start : ℚ)
  let domain_color := (domain_colors.lookup r.domain).getD "#1f77b4"
  if shape_choice = "Rectangle" then
    some (.rect ((r.start : ℚ), y_position) width protein_height domain_color)
  else if shape_choice = "Rounded Rectangle" then
    some (.fancy ((r.start : ℚ), y_position) width protein_height domain_color)
  else if shape_choice = "Oval" then
    some (.ellipse (((r.start : ℚ) + (r.endPos : ℚ)) / 2, y_position + protein_height / 2)
      width protein_height domain_color)
  else none

/-- The filter `filtered_data`: the records whose protein is among the selected
proteins and whose domain is among the selected domains. -/
def filterRecords (domain_data : List FeatureRecord)
    (selected_proteins selected_domains : List String) : List FeatureRecord :=
  domain_data.filter
    (fun e => selected_proteins.contains e.protein && selected_domains.contains e.domain)

/-- The patches added by the nested drawing loops: for the `i`-th selected
protein (lane bottom `i * (protein_height + protein_gap)`), one patch per
row of the filtered frame with that protein, in frame order. -/
def drawnShapes (filtered : List FeatureRecord) (selected_proteins : List String)
    (shape_choice : String) (domain_colors : List (String × String)) : List Shape :=
  selected_proteins.enum.flatMap (fun ip =>
    let y_position : ℚ := (ip.1 : ℚ) * (protein_height + protein_gap)
    (filtered.filter (fun r => r.protein == ip.2)).filterMap
      (mkShape shape_choice y_position domain_colors))

/-- The value `df["End"].max()` over the filtered frame (the frame is nonempty
whenever this is used). -/
def maxEnd (filtered : List FeatureRecord) : ℚ :=
  ((filtered.map (fun r => (r.endPos : ℚ))).max?).getD 0

/-- The legend handle list `[mpatches.Patch(color=domain_colors[domain],
label=domain, ...) for domain in selected_domains]`: `.error d` models the
KeyError raised at the first selected domain `d` missing from
`domain_colors`. -/
def buildLegend (domain_colors : List (String × String)) :
    List String → Except String (List (String × String))
  | [] => .ok []
  | d :: ds =>
    match domain_colors.lookup d with
    | some c => (buildLegend domain_colors ds).map (fun ps => (c, d) :: ps)
    | none => .error d

/-- The figure handed to `st.pyplot`: patches, axis limits, y ticks and
labels, and legend entries as `(color, label)` pairs. -/
structure Figure where
  shapes : List Shape
  xlim : ℚ × ℚ
  ylim : ℚ × ℚ
  yticks : List ℚ
  yticklabels : List String
  legend : List (String × String)
deriving DecidableEq

/-- The observable outcome of one `plot_domains` call. -/
inductive RenderResult where
  /-- An `st.info(...)` call followed by `return`: no figure is produced. -/
  | emptyState : RenderResult
  /-- The KeyError raised by `domain_colors[domain]` in the legend
  comprehension for the named domain: the figure never reaches `st.pyplot`. -/
  | keyError : String → RenderResult
  /-- An `st.pyplot(fig)` call on the completed figure. -/
  | figure : Figure → RenderResult
deriving DecidableEq

/-- The renderer `plot_domains`: filter, empty-state short-circuit, shape-drawing loops,
axis setup, legend construction (which may raise), display. -/
def plot_domains (domain_data : List FeatureRecord)
    (selected_proteins selected_domains : List String)
    (shape_choice : String) (domain_colors : List (String × String)) : RenderResult :=
  let filtered := filterRecords domain_data selected_proteins selected_domains
  if filtered.isEmpty then .emptyState
  else
    match buildLegend domain_colors selected_domains with
    | .error d => .keyError d
    | .ok legend =>
      .figure
        { shapes := drawnShapes filtered selected_proteins shape_choice domain_colors
          xlim := (0, maxEnd filtered + 10)
          ylim := (-protein_gap, (selected_proteins.length : ℚ) * (protein_height + protein_gap))
          yticks := (List.range selected_proteins.length).map
            (fun i => (i : ℚ) * (protein_height + protein_gap) + protein_height / 2)
          yticklabels := selected_proteins
          legend := legend }

/-! ## The per-session color assignment (`st.session_state.domain_colors`) -/

/-- The loop `for domain in selected_domains: if domain not in
st.session_state.domain_colors: st.session_state.domain_colors[domain] =
random_color()`. The successive results of `random_color()` are supplied by
the oracle `fresh`, indexed by the number of calls made so far (`n`). -/
def ensure_colors (fresh : Nat → String) :
    List (String × String) → List String → Nat → List (String × String)
  | cs, [], _ => cs
  | cs, d :: ds, n =>
    if (cs.lookup d).isSome then ensure_colors fresh cs ds n
    else ensure_colors fresh (cs ++ [(d, fresh n)]) ds (n + 1)

/-- The dict comprehension `{domain: random_color() for domain in
selected_domains}` initializing the session state, with the `random_color()`
oracle `fresh` and call counter `n`. -/
def pyDictComp (fresh : Nat → String) :
    List String → Nat → List (String × String) → List (String × String)
  | [], _, acc => acc
  | d :: ds, n, acc => pyDictComp fresh ds (n + 1) (pyDictInsert acc d (fresh n))

/-- Lines 122–129 of the source: initialize `st.session_state.domain_colors`
with a fresh color per selected domain when the key is absent from the
session (`state = none`), then lazily add a fresh color for every selected
domain still missing an entry. -/
def domain_colors_step (fresh : Nat → String)
    (state : Option (List (String × String))) (selected : List String) :
    List (String × String) :=
  match state with
  | none => ensure_colors fresh (pyDictComp fresh selected 0 []) selected selected.length
  | some cs => ensure_colors fresh cs selected 0

example :
    plot_domains [⟨"ProtA", 10, 50, "Kinase"⟩] ["ProtA"] ["Kinase"]
      "Rectangle" [("Kinase", "#ff0000")] =
    .figure
      { shapes := [.rect (10, 0) 40 protein_height "#ff0000"]
        xlim := (0, 60)
        ylim := (-protein_gap, protein_height + protein_gap)
        yticks := [protein_height / 2]
        yticklabels := ["ProtA"]
        legend := [("#ff0000", "Kinase")] } := by with_unfolding_all decide

example :
    plot_domains [⟨"ProtA", 10, 50, "Kinase"⟩] ["ProtB"] ["Kinase"]
      "Rectangle" [("Kinase", "#ff0000")] = .emptyState := by decide

example :
    plot_domains [⟨"ProtA", 10, 50, "Kinase"⟩] ["ProtA"] ["Kinase"]
      "Rectangle" [] = .keyError "Kinase" := by with_unfolding_all decide

example :
    domain_colors_step (fun n => s!"c{n}") (some [("A", "x"), ("B", "y")]) ["A", "B", "C"] =
      [("A", "x"), ("B", "y"), ("C", "c0")] := by decide

/-! ## Parser lemmas -/

theorem parse_gff_eq_none_of_mem {ls : List String} {l : String}
    (hmem : l ∈ ls) (hnone : parseLine l = none) : parse_gff ls = none := by
  induction ls with
  | nil => cases hmem
  | cons x xs ih =>
    rcases List.mem_cons.mp hmem with h | h
    · subst h
      simp [parse_gff, hnone]
    · simp only [parse_gff, ih h]
      cases parseLine x <;> simp

theorem parseLine_isSome_of_parse {ls : List String} {out}
    (h : parse_gff ls = some out) : ∀ l ∈ ls, (parseLine l).isSome := by
  intro l hl
  cases hx : parseLine l with
  | none => rw [parse_gff_eq_none_of_mem hl hx] at h; cases h
  | some res => rfl

theorem parse_gff_eq_of_forall_isSome {ls : List String}
    (h : ∀ l ∈ ls, (parseLine l).isSome) :
    parse_gff ls = some (ls.filterMap lineRec, (ls.filterMap linePoly).toFinset) := by
  induction ls with
  | nil => simp [parse_gff]
  | cons x xs ih =>
    have hx := h x (List.mem_cons_self x xs)
    have hxs := ih (fun l hl => h l (List.mem_cons_of_mem _ hl))
    cases hres : parseLine x with
    | none => rw [hres] at hx; cases hx
    | some res =>
      simp only [parse_gff, hres, hxs]
      cases res <;>
        simp [lineRec, linePoly, hres, List.filterMap_cons]

theorem parse_gff_append {xs ys : List String} {r1 r2 : List FeatureRecord}
    {p1 p2 : Finset String}
    (h1 : parse_gff xs = some (r1, p1)) (h2 : parse_gff ys = some (r2, p2)) :
    parse_gff (xs ++ ys) = some (r1 ++ r2, p1 ∪ p2) := by
  induction xs generalizing r1 p1 with
  | nil =>
    simp only [parse_gff, Option.some.injEq, Prod.mk.injEq] at h1
    rw [List.nil_append, h2, h1.1.symm, h1.2.symm]
    simp
  | cons x xs ih =>
    rw [List.cons_append]
    simp only [parse_gff] at h1 ⊢
    cases hl : parseLine x with
    | none => rw [hl] at h1; cases h1
    | some res =>
      rw [hl] at h1
      cases hxs : parse_gff xs with
      | none => rw [hxs] at h1; cases res <;> cases h1
      | some out1 =>
        rcases out1 with ⟨r1', p1'⟩
        rw [hxs] at h1
        rw [ih hxs]
        cases res with
        | skip =>
          simp only [Option.some.injEq, Prod.mk.injEq] at h1
          rw [h1.1.symm, h1.2.symm]
        | other =>
          simp only [Option.some.injEq, Prod.mk.injEq] at h1
          rw [h1.1.symm, h1.2.symm]
        | poly p =>
          simp only [Option.some.injEq, Prod.mk.injEq] at h1
          rw [h1.1.symm, h1.2.symm, Finset.insert_union]
        | record r =>
          simp only [Option.some.injEq, Prod.mk.injEq] at h1
          rw [h1.1.symm, h1.2.symm, List.cons_append]

theorem parseLine_eq_none_of_bad_int {l : String}
    (hnc : isComment l = false) (hf : ¬ (fieldsOf l).length < 9)
    (hbad : pyInt ((fieldsOf l).getD 3 "") = none ∨
      pyInt ((fieldsOf l).getD 4 "") = none) :
    parseLine l = none := by
  simp only [parseLine, hnc, Bool.false_eq_true, if_false, if_neg hf]
  rcases hbad with hb | hb
  · rw [hb]
  · cases pyInt ((fieldsOf l).getD 3 "") <;> rw [hb]

theorem parseLine_eq_of_fields {l : String} {s e : Int} {attrs : List (String × String)}
    (hnc : isComment l = false) (hf : ¬ (fieldsOf l).length < 9)
    (h3 : pyInt ((fieldsOf l).getD 3 "") = some s)
    (h4 : pyInt ((fieldsOf l).getD 4 "") = some e)
    (ha : parse_attributes ((fieldsOf l).getD 8 "") = some attrs) :
    parseLine l =
      if (fieldsOf l).getD 2 "" = "polypeptide" then
        some (.poly ((fieldsOf l).getD 0 ""))
      else if (fieldsOf l).getD 2 "" = "protein_match" then
        some (.record ⟨(fieldsOf l).getD 0 "", s, e, (attrs.lookup "Name").getD "Unknown"⟩)
      else some .other := by
  simp only [parseLine, hnc, Bool.false_eq_true, if_false, if_neg hf, h3, h4, ha]

/-! ## Claim-side measures on raw input lines -/

/-- Well-formedness as the spec states it: every non-comment line with at
least 9 tab-separated fields has integer start/end fields. -/
def wf_input (lines : List String) : Bool :=
  lines.all (fun l =>
    if isComment l then true
    else if (fieldsOf l).length < 9 then true
    else (pyInt ((fieldsOf l).getD 3 "")).isSome &&
      (pyInt ((fieldsOf l).getD 4 "")).isSome)

/-- The additional well-formedness the code demands: on every non-comment
line with at least 9 fields, each attribute entry of field 8 containing an
`'='` splits on `'='` into exactly two parts. -/
def attrs_wf (lines : List String) : Bool :=
  lines.all (fun l =>
    if isComment l then true
    else if (fieldsOf l).length < 9 then true
    else (parse_attributes ((fieldsOf l).getD 8 "")).isSome)

/-- A line whose feature type is the domain-match marker `"protein_match"`. -/
def isDomainMatchLine (l : String) : Bool :=
  !isComment l && !decide ((fieldsOf l).length < 9) &&
    ((fieldsOf l).getD 2 "" == "protein_match")

/-- The number N of domain-match lines of the input. -/
def domainMatchCount (lines : List String) : Nat :=
  lines.countP isDomainMatchLine

/-- A line whose feature type is the polypeptide marker `"polypeptide"`. -/
def isPolyLine (l : String) : Bool :=
  !isComment l && !decide ((fieldsOf l).length < 9) &&
    ((fieldsOf l).getD 2 "" == "polypeptide")

/-- The K distinct identifiers referenced by polypeptide lines. -/
def polypeptideIds (lines : List String) : Finset String :=
  (lines.filterMap (fun l =>
    if isPolyLine l then some ((fieldsOf l).getD 0 "") else none)).toFinset

/-! ## Claim theorems: parser -/

/-- C2: whenever the input contains a non-comment line with at least 9
tab-separated fields whose field 3 or field 4 is not an integer literal,
the whole parse fails — `parse_gff` returns `none`, so no records and no
protein ids are produced for any line — regardless of that line's feature
type (the `int(...)` conversions run before the feature-type tests). -/
theorem parse_fatal_on_noninteger_bounds
    (lines : List String) (l : String) (hmem : l ∈ lines)
    (hnc : isComment l = false) (hf : 9 ≤ (fieldsOf l).length)
    (hbad : pyInt ((fieldsOf l).getD 3 "") = none ∨
      pyInt ((fieldsOf l).getD 4 "") = none) :
    parse_gff lines = none :=
  parse_gff_eq_none_of_mem hmem
    (parseLine_eq_none_of_bad_int hnc (Nat.not_lt.mpr hf) hbad)

/-- Witness for C2: a `gene` line (neither marker type) with start `X`
aborts a parse that also contains a good line. -/
theorem parse_fatal_on_noninteger_bounds_witness :
    parse_gff ["P\tsrc\tpolypeptide\t1\t9\t.\t.\t.\tID=p",
      "A\tsrc\tgene\tX\t5\t.\t.\t.\tk=v"] = none :=
  parse_fatal_on_noninteger_bounds _ "A\tsrc\tgene\tX\t5\t.\t.\t.\tk=v"
    (by decide) (by decide) (by decide) (Or.inl (by decide))

/-- C4: field 8 is split on semicolons and each entry with an `'='` is
split on `'='` into a key/value pair (`attrsOfItems`, used by `parseLine`
through `parse_attributes`); an entry containing no `'='` is dropped
silently: deleting it from the entry list leaves the attribute mapping —
and hence everything else the line parses to — unchanged. -/
theorem attributes_drop_entries_without_eq
    (pre post : List String) (e : String) (he : strContains e '=' = false) :
    attrsOfItems (pre ++ e :: post) = attrsOfItems (pre ++ post) := by
  unfold attrsOfItems
  have hfilter : (pre ++ e :: post).filter (fun item => strContains item '=') =
      (pre ++ post).filter (fun item => strContains item '=') := by
    simp [List.filter_append, List.filter_cons, he]
  rw [hfilter]

/-- Witness for C4: the `'='`-free entry `junk` is dropped without
affecting the surrounding entries. -/
theorem attributes_drop_entries_without_eq_witness :
    attrsOfItems (["a=1"] ++ "junk" :: ["b=2"]) = attrsOfItems (["a=1"] ++ ["b=2"]) :=
  attributes_drop_entries_without_eq ["a=1"] ["b=2"] "junk" (by decide)

/-- C5: a non-comment line with at least 9 fields, feature type
`protein_match`, integer bounds and a well-formed attribute list whose
mapping contains no "Name" key appends exactly one record with domain name
"Unknown" (the protein-id set is unchanged). -/
theorem protein_match_without_name_unknown
    (l : String) (hnc : isComment l = false) (hf : 9 ≤ (fieldsOf l).length)
    (hty : (fieldsOf l).getD 2 "" = "protein_match")
    (s e : Int) (h3 : pyInt ((fieldsOf l).getD 3 "") = some s)
    (h4 : pyInt ((fieldsOf l).getD 4 "") = some e)
    (attrs : List (String × String))
    (ha : parse_attributes ((fieldsOf l).getD 8 "") = some attrs)
    (hname : attrs.lookup "Name" = none)
    (pre : List String) (recs : List FeatureRecord) (pids : Finset String)
    (hpre : parse_gff pre = some (recs, pids)) :
    parse_gff (pre ++ [l]) =
      some (recs ++ [⟨(fieldsOf l).getD 0 "", s, e, "Unknown"⟩], pids) := by
  have hl : parseLine l = some (.record ⟨(fieldsOf l).getD 0 "", s, e, "Unknown"⟩) := by
    rw [parseLine_eq_of_fields hnc (Nat.not_lt.mpr hf) h3 h4 ha, hty]
    rw [if_neg (by decide), if_pos rfl, hname]
    rfl
  have hsingle : parse_gff [l] =
      some ([⟨(fieldsOf l).getD 0 "", s, e, "Unknown"⟩], ∅) := by
    simp [parse_gff, hl]
  have happ := parse_gff_append hpre hsingle
  rwa [Finset.union_empty] at happ

/-- Witness for C5: a `protein_match` line with attributes `ID=x` (no
`Name=`) yields the record `("ProtX", 3, 7, "Unknown")`. -/
theorem protein_match_without_name_unknown_witness :
    parse_gff (["##h"] ++ ["ProtX\tsrc\tprotein_match\t3\t7\t.\t.\t.\tID=x"]) =
      some ([] ++ [⟨"ProtX", 3, 7, "Unknown"⟩], ∅) :=
  protein_match_without_name_unknown
    "ProtX\tsrc\tprotein_match\t3\t7\t.\t.\t.\tID=x"
    (by decide) (by decide) (by decide) 3 7 (by decide) (by decide)
    [("ID", "x")] (by decide) (by decide) ["##h"] [] ∅ (by decide)

theorem length_filterMap_isSome {α β : Type} (f : α → Option β) (ls : List α) :
    (ls.filterMap f).length = ls.countP (fun x => (f x).isSome) := by
  induction ls with
  | nil => rfl
  | cons x xs ih =>
    cases hx : f x <;> simp [List.filterMap_cons, List.countP_cons, hx, ih]

theorem per_line_classification {l : String}
    (w1 : (if isComment l then true
      else if (fieldsOf l).length < 9 then true
      else (pyInt ((fieldsOf l).getD 3 "")).isSome &&
        (pyInt ((fieldsOf l).getD 4 "")).isSome) = true)
    (w2 : (if isComment l then true
      else if (fieldsOf l).length < 9 then true
      else (parse_attributes ((fieldsOf l).getD 8 "")).isSome) = true) :
    (parseLine l).isSome ∧
    ((lineRec l).isSome = isDomainMatchLine l) ∧
    (linePoly l = if isPolyLine l then some ((fieldsOf l).getD 0 "") else none) := by
  by_cases hnc : isComment l = true
  · simp [parseLine, lineRec, linePoly, isDomainMatchLine, isPolyLine, hnc]
  · have hnc' : isComment l = false := by simpa using hnc
    by_cases hlen : (fieldsOf l).length < 9
    · simp [parseLine, lineRec, linePoly, isDomainMatchLine, isPolyLine, hnc', hlen]
    · rw [if_neg (by simp [hnc']), if_neg hlen] at w1 w2
      obtain ⟨w3, w4⟩ := Bool.and_eq_true_iff.mp w1
      obtain ⟨s, hs⟩ := Option.isSome_iff_exists.mp w3
      obtain ⟨e, he⟩ := Option.isSome_iff_exists.mp w4
      obtain ⟨attrs, hattrs⟩ := Option.isSome_iff_exists.mp w2
      have hline := parseLine_eq_of_fields hnc' hlen hs he hattrs
      by_cases hty1 : (fieldsOf l).getD 2 "" = "polypeptide"
      · rw [if_pos hty1] at hline
        refine ⟨by simp [hline], ?_, ?_⟩
        · unfold lineRec isDomainMatchLine
          rw [hline, hnc', hty1]
          simp [hlen]
        · unfold linePoly isPolyLine
          rw [hline, hnc', hty1]
          simp [hlen]
      · by_cases hty2 : (fieldsOf l).getD 2 "" = "protein_match"
        · rw [if_neg hty1, if_pos hty2] at hline
          refine ⟨by simp [hline], ?_, ?_⟩
          · unfold lineRec isDomainMatchLine
            rw [hline, hnc', hty2]
            simp [hlen]
          · unfold linePoly isPolyLine
            rw [hline, hnc', hty2]
            simp [hlen]
        · rw [if_neg hty1, if_neg hty2] at hline
          have hb1 : ((fieldsOf l).getD 2 "" == "protein_match") = false := by
            simpa using hty2
          have hb2 : ((fieldsOf l).getD 2 "" == "polypeptide") = false := by
            simpa using hty1
          refine ⟨by simp [hline], ?_, ?_⟩
          · unfold lineRec isDomainMatchLine
            rw [hline, hnc', hb1]
            simp [hlen]
          · unfold linePoly isPolyLine
            rw [hline, hnc', hb2]
            simp [hlen]

/-- C1 as stated is false on the code: this well-formed input (its only
line is non-comment, has 9 tab-separated fields and integer start/end) has
N = 1 domain-match lines, yet the parse returns no records at all — the
attribute entry `a=b=c` splits on `'='` into three parts, which aborts the
Python `dict(...)` construction with a ValueError. -/
theorem parse_wellformed_count_counterexample :
    wf_input ["P\tsrc\tprotein_match\t1\t2\t.\t.\t.\ta=b=c"] = true ∧
    domainMatchCount ["P\tsrc\tprotein_match\t1\t2\t.\t.\t.\ta=b=c"] = 1 ∧
    parse_gff ["P\tsrc\tprotein_match\t1\t2\t.\t.\t.\ta=b=c"] = none := by
  decide

/-- C1 amended: when additionally every attribute entry containing `'='`
on a qualifying line splits into exactly two parts (`attrs_wf`), parsing
succeeds and returns exactly N records for the N domain-match lines and a
protein-id set of size at most K, the number of distinct identifiers
referenced by polypeptide lines (duplicates collapse). -/
theorem parse_wellformed_count (lines : List String)
    (h1 : wf_input lines = true) (h2 : attrs_wf lines = true) :
    ∃ recs pids, parse_gff lines = some (recs, pids) ∧
      recs.length = domainMatchCount lines ∧
      pids.card ≤ (polypeptideIds lines).card := by
  have hall : ∀ l ∈ lines, (parseLine l).isSome ∧
      ((lineRec l).isSome = isDomainMatchLine l) ∧
      (linePoly l = if isPolyLine l then some ((fieldsOf l).getD 0 "") else none) :=
    fun l hl => per_line_classification
      (List.all_eq_true.mp h1 l hl) (List.all_eq_true.mp h2 l hl)
  refine ⟨_, _, parse_gff_eq_of_forall_isSome (fun l hl => (hall l hl).1), ?_, ?_⟩
  · rw [length_filterMap_isSome]
    exact List.countP_congr (fun l hl => by rw [(hall l hl).2.1])
  · have hpoly : lines.filterMap linePoly = lines.filterMap (fun l =>
        if isPolyLine l then some ((fieldsOf l).getD 0 "") else none) :=
      List.filterMap_congr (fun l hl => (hall l hl).2.2)
    unfold polypeptideIds
    rw [hpoly]

/-- Witness for the amended C1: a comment line, one polypeptide line, one
domain-match line and one short line parse to exactly one record and one
protein id. -/
theorem parse_wellformed_count_witness :
    wf_input ["##gff-version 3", "P1\tsrc\tpolypeptide\t1\t9\t.\t.\t.\tID=p1",
      "P1\tsrc\tprotein_match\t1\t5\t.\t.\t.\tName=K", "short"] = true ∧
    ∃ recs pids,
      parse_gff ["##gff-version 3", "P1\tsrc\tpolypeptide\t1\t9\t.\t.\t.\tID=p1",
        "P1\tsrc\tprotein_match\t1\t5\t.\t.\t.\tName=K", "short"] = some (recs, pids) ∧
      recs.length = domainMatchCount ["##gff-version 3",
        "P1\tsrc\tpolypeptide\t1\t9\t.\t.\t.\tID=p1",
        "P1\tsrc\tprotein_match\t1\t5\t.\t.\t.\tName=K", "short"] ∧
      pids.card ≤ (polypeptideIds ["##gff-version 3",
        "P1\tsrc\tpolypeptide\t1\t9\t.\t.\t.\tID=p1",
        "P1\tsrc\tprotein_match\t1\t5\t.\t.\t.\tName=K", "short"]).card :=
  ⟨by decide, parse_wellformed_count _ (by decide) (by decide)⟩

/-- A line that would contribute a record lying in the selected
protein/domain subset. -/
def matchesSubset (P D : List String) (l : String) : Bool :=
  match lineRec l with
  | some r => P.contains r.protein && D.contains r.domain
  | none => false

theorem filterMap_lineRec_filter (P D : List String) (ls : List String) :
    (ls.filter (matchesSubset P D)).filterMap lineRec =
      (ls.filterMap lineRec).filter
        (fun r => P.contains r.protein && D.contains r.domain) := by
  induction ls with
  | nil => rfl
  | cons x xs ih =>
    cases hx : lineRec x with
    | none =>
      have hm : matchesSubset P D x = false := by simp [matchesSubset, hx]
      simp [List.filter_cons, List.filterMap_cons, hm, hx, ih]
    | some r =>
      have hm : matchesSubset P D x = (P.contains r.protein && D.contains r.domain) := by
        simp [matchesSubset, hx]
      by_cases hp : (P.contains r.protein && D.contains r.domain) = true
      · have hmem : r.protein ∈ P ∧ r.domain ∈ D := by simpa using hp
        simp [List.filter_cons, List.filterMap_cons, hm, hp, hx, ih, hmem.1, hmem.2]
      · have hp' : (P.contains r.protein && D.contains r.domain) = false :=
          Bool.eq_false_iff.mpr hp
        have hmem : ¬(r.protein ∈ P ∧ r.domain ∈ D) := by simpa using hp
        simp [List.filter_cons, List.filterMap_cons, hm, hp', hx, ih, hmem]

/-- C7: if the whole input parses, filtering the parsed records to a
protein/domain subset (exactly the filter the renderer applies) gives the
same record sequence as parsing only the input lines that match the subset
directly. -/
theorem parse_filter_commutes (lines P D : List String)
    (recs : List FeatureRecord) (pids : Finset String)
    (h : parse_gff lines = some (recs, pids)) :
    ∃ pids', parse_gff (lines.filter (matchesSubset P D)) =
      some (filterRecords recs P D, pids') := by
  have hsome := parseLine_isSome_of_parse h
  have h' := parse_gff_eq_of_forall_isSome hsome
  rw [h] at h'
  simp only [Option.some.injEq, Prod.mk.injEq] at h'
  refine ⟨((lines.filter (matchesSubset P D)).filterMap linePoly).toFinset, ?_⟩
  rw [parse_gff_eq_of_forall_isSome
    (fun l hl => hsome l (List.mem_filter.mp hl).1)]
  rw [filterMap_lineRec_filter, filterRecords, h'.1]

/-- Witness for C7 on a two-record input restricted to protein `A`,
domain `D1`. -/
theorem parse_filter_commutes_witness :
    ∃ pids', parse_gff (["A\ts\tprotein_match\t1\t2\t.\t.\t.\tName=D1",
        "B\ts\tprotein_match\t3\t4\t.\t.\t.\tName=D2"].filter
          (matchesSubset ["A"] ["D1"])) =
      some (filterRecords [⟨"A", 1, 2, "D1"⟩, ⟨"B", 3, 4, "D2"⟩] ["A"] ["D1"], pids') :=
  parse_filter_commutes _ ["A"] ["D1"] _ ∅ (by decide)

/-! ## Renderer lemmas -/

theorem sum_map_ite_not_mem {x : String} (f : String → Nat) :
    ∀ {P : List String}, x ∉ P →
      (P.map (fun p => if x = p then 1 + f p else f p)).sum = (P.map f).sum := by
  intro P
  induction P with
  | nil => intro _; rfl
  | cons q Q ih =>
    intro hx
    have hne : x ≠ q := fun h => hx (h ▸ List.mem_cons_self q Q)
    have hx' : x ∉ Q := fun h => hx (List.mem_cons_of_mem _ h)
    simp [List.map_cons, if_neg hne, ih hx']

theorem sum_map_ite_mem {x : String} (f : String → Nat) :
    ∀ {P : List String}, P.Nodup → x ∈ P →
      (P.map (fun p => if x = p then 1 + f p else f p)).sum = 1 + (P.map f).sum := by
  intro P
  induction P with
  | nil => intro _ hx; cases hx
  | cons q Q ih =>
    intro hnd hx
    rcases List.mem_cons.mp hx with h | h
    · subst h
      have hq : x ∉ Q := (List.nodup_cons.mp hnd).1
      simp [sum_map_ite_not_mem f hq]
      omega
    · have hne : x ≠ q := by
        intro he
        exact (List.nodup_cons.mp hnd).1 (he ▸ h)
      rw [List.map_cons, List.map_cons, List.sum_cons, List.sum_cons, if_neg hne,
        ih (List.nodup_cons.mp hnd).2 h]
      omega

theorem count_partition (P : List String) (hnd : P.Nodup) :
    ∀ l : List FeatureRecord, (∀ r ∈ l, r.protein ∈ P) →
      (P.map (fun p => (l.filter (fun r => r.protein == p)).length)).sum = l.length := by
  intro l
  induction l with
  | nil =>
    intro _
    have hzero : ∀ Q : List String, (Q.map (fun _ : String => (0 : Nat))).sum = 0 := by
      intro Q
      induction Q with
      | nil => rfl
      | cons q Q ihQ => simp [ihQ]
    simp only [List.filter_nil, List.length_nil]
    exact hzero P
  | cons r l ih =>
    intro hmem
    have hr := hmem r (List.mem_cons_self r l)
    have hl := fun x hx => hmem x (List.mem_cons_of_mem _ hx)
    have hstep : P.map (fun p => (((r :: l)).filter (fun x => x.protein == p)).length) =
        P.map (fun p => if r.protein = p then
          1 + (l.filter (fun x => x.protein == p)).length
          else (l.filter (fun x => x.protein == p)).length) := by
      refine List.map_congr_left (fun p _ => ?_)
      rw [List.filter_cons]
      by_cases h : r.protein = p
      · simp [h]
        omega
      · simp [h]
    rw [hstep, sum_map_ite_mem _ hnd hr, ih hl]
    simp [Nat.add_comm]

theorem mkShape_isSome {shape : String}
    (h : shape = "Rectangle" ∨ shape = "Rounded Rectangle" ∨ shape = "Oval")
    (y : ℚ) (colors : List (String × String)) (r : FeatureRecord) :
    (mkShape shape y colors r).isSome := by
  rcases h with h | h | h <;> subst h <;> simp [mkShape]

theorem drawnShapes_length {filtered : List FeatureRecord} {P : List String}
    {shape : String} {colors : List (String × String)}
    (hshape : shape = "Rectangle" ∨ shape = "Rounded Rectangle" ∨ shape = "Oval")
    (hnd : P.Nodup) (hmem : ∀ r ∈ filtered, r.protein ∈ P) :
    (drawnShapes filtered P shape colors).length = filtered.length := by
  unfold drawnShapes
  rw [List.length_flatMap]
  have hpt : P.enum.map (List.length ∘ (fun ip =>
      let y_position : ℚ := (ip.1 : ℚ) * (protein_height + protein_gap)
      (filtered.filter (fun r => r.protein == ip.2)).filterMap
        (mkShape shape y_position colors))) =
      P.enum.map (fun ip => (filtered.filter (fun r => r.protein == ip.2)).length) := by
    refine List.map_congr_left (fun ip _ => ?_)
    show ((filtered.filter (fun r => r.protein == ip.2)).filterMap
      (mkShape shape ((ip.1 : ℚ) * (protein_height + protein_gap)) colors)).length = _
    rw [length_filterMap_isSome]
    exact List.countP_eq_length.mpr (fun r _ => mkShape_isSome hshape _ colors r)
  rw [hpt]
  have henum : P.enum.map (fun ip => (filtered.filter (fun r => r.protein == ip.2)).length) =
      P.map (fun p => (filtered.filter (fun r => r.protein == p)).length) := by
    rw [show (fun ip : Nat × String =>
        (filtered.filter (fun r => r.protein == ip.2)).length) =
      ((fun p => (filtered.filter (fun r => r.protein == p)).length) ∘ Prod.snd) from rfl]
    rw [← List.map_map, List.enum_map_snd]
  rw [henum]
  exact count_partition P hnd filtered hmem

theorem mem_drawnShapes {filtered : List FeatureRecord} {P : List String}
    {shape : String} {colors : List (String × String)}
    {i : Nat} (hi : i < P.length) {r : FeatureRecord} (hr : r ∈ filtered)
    (hp : r.protein = P.get ⟨i, hi⟩) {s : Shape}
    (hs : mkShape shape ((i : ℚ) * (protein_height + protein_gap)) colors r = some s) :
    s ∈ drawnShapes filtered P shape colors := by
  unfold drawnShapes
  rw [List.mem_flatMap]
  refine ⟨(i, P.get ⟨i, hi⟩), ?_, ?_⟩
  · have hlen : i < P.enum.length := by simpa [List.enum_length] using hi
    have hget := List.getElem_enum P i hlen
    have hmem := List.getElem_mem hlen
    rw [hget] at hmem
    simpa [List.get_eq_getElem] using hmem
  · exact List.mem_filterMap.mpr ⟨r, List.mem_filter.mpr ⟨hr, by simp [hp]⟩, hs⟩

/-! ## Claim theorems: renderer -/

/-- C3: with a duplicate-free selected protein list and one of the three
shape kinds, rendering an empty filtered set signals the informational
empty state and produces no figure; with at least one matching record the
renderer does not take the empty-state path and draws exactly one shape
per matching record. -/
theorem render_empty_and_shape_count
    (records : List FeatureRecord) (P D : List String) (shape : String)
    (colors : List (String × String))
    (hshape : shape = "Rectangle" ∨ shape = "Rounded Rectangle" ∨ shape = "Oval")
    (hnd : P.Nodup) :
    (filterRecords records P D = [] →
      plot_domains records P D shape colors = .emptyState) ∧
    (filterRecords records P D ≠ [] →
      plot_domains records P D shape colors ≠ .emptyState ∧
      (drawnShapes (filterRecords records P D) P shape colors).length =
        (filterRecords records P D).length) := by
  constructor
  · intro h
    simp [plot_domains, h]
  · intro h
    have hemp : (filterRecords records P D).isEmpty = false := by
      simpa using h
    constructor
    · simp only [plot_domains, hemp, Bool.false_eq_true, if_false]
      cases buildLegend colors D <;> exact fun hx => RenderResult.noConfusion hx
    · refine drawnShapes_length hshape hnd (fun r hr => ?_)
      have hf := List.mem_filter.mp hr
      have hmem := hf.2
      simp at hmem
      exact hmem.1

/-- Witness for C3: one matching record, one non-matching protein. -/
theorem render_empty_and_shape_count_witness :
    (filterRecords [⟨"A", 1, 3, "D"⟩] ["B"] ["D"] = [] →
      plot_domains [⟨"A", 1, 3, "D"⟩] ["B"] ["D"] "Rectangle" [] = .emptyState) ∧
    (filterRecords [⟨"A", 1, 3, "D"⟩] ["B"] ["D"] ≠ [] →
      plot_domains [⟨"A", 1, 3, "D"⟩] ["B"] ["D"] "Rectangle" [] ≠ .emptyState ∧
      (drawnShapes (filterRecords [⟨"A", 1, 3, "D"⟩] ["B"] ["D"]) ["B"] "Rectangle" []).length =
        (filterRecords [⟨"A", 1, 3, "D"⟩] ["B"] ["D"]).length) :=
  render_empty_and_shape_count [⟨"A", 1, 3, "D"⟩] ["B"] ["D"] "Rectangle" []
    (Or.inl rfl) (by decide)

/-- C8: whenever a figure is produced, lane constants are height 0.4 and
gap 1.0, the x-axis spans 0 to (max filtered end + 10), the y tick labels
are the selected proteins in lane order with ticks at the lane centers,
and the shape of every filtered record of the i-th selected protein is
drawn at lane bottom i * (0.4 + 1.0). -/
theorem lane_geometry_and_axes
    (records : List FeatureRecord) (P D : List String) (shape : String)
    (colors : List (String × String)) (f : Figure)
    (h : plot_domains records P D shape colors = .figure f) :
    protein_height = 0.4 ∧ protein_gap = 1.0 ∧
    f.xlim = (0, maxEnd (filterRecords records P D) + 10) ∧
    f.yticklabels = P ∧
    f.yticks = (List.range P.length).map
      (fun i => (i : ℚ) * (0.4 + 1.0) + 0.4 / 2) ∧
    ∀ i (hi : i < P.length) (r : FeatureRecord),
      r ∈ filterRecords records P D → r.protein = P.get ⟨i, hi⟩ →
      ∀ s, mkShape shape ((i : ℚ) * (0.4 + 1.0)) colors r = some s →
        s ∈ f.shapes := by
  unfold plot_domains at h
  by_cases hemp : (filterRecords records P D).isEmpty
  · rw [if_pos hemp] at h
    cases h
  · rw [if_neg hemp] at h
    cases hl : buildLegend colors D with
    | error d => rw [hl] at h; cases h
    | ok L =>
      rw [hl] at h
      have hf : f = { shapes := drawnShapes (filterRecords records P D) P shape colors
                      xlim := (0, maxEnd (filterRecords records P D) + 10)
                      ylim := (-protein_gap, (P.length : ℚ) * (protein_height + protein_gap))
                      yticks := (List.range P.length).map
                        (fun i => (i : ℚ) * (protein_height + protein_gap) + protein_height / 2)
                      yticklabels := P
                      legend := L } := by
        cases h
        rfl
      subst hf
      exact ⟨rfl, rfl, rfl, rfl, rfl,
        fun i hi r hr hp s hs => mem_drawnShapes hi hr hp hs⟩

/-- Witness for C8: one record for protein `A` spanning 5–9. -/
theorem lane_geometry_and_axes_witness :
    protein_height = 0.4 ∧ protein_gap = 1.0 ∧
    (Figure.mk [.rect (5, 0) 4 protein_height "#123456"] (0, 19) (-1, 1.4) [0.2] ["A"]
      [("#123456", "D")]).xlim =
        (0, maxEnd (filterRecords [⟨"A", 5, 9, "D"⟩] ["A"] ["D"]) + 10) ∧
    (Figure.mk [.rect (5, 0) 4 protein_height "#123456"] (0, 19) (-1, 1.4) [0.2] ["A"]
      [("#123456", "D")]).yticklabels = ["A"] ∧
    (Figure.mk [.rect (5, 0) 4 protein_height "#123456"] (0, 19) (-1, 1.4) [0.2] ["A"]
      [("#123456", "D")]).yticks = (List.range (["A"] : List String).length).map
        (fun i => (i : ℚ) * (0.4 + 1.0) + 0.4 / 2) ∧
    ∀ i (hi : i < (["A"] : List String).length) (r : FeatureRecord),
      r ∈ filterRecords [⟨"A", 5, 9, "D"⟩] ["A"] ["D"] →
      r.protein = (["A"] : List String).get ⟨i, hi⟩ →
      ∀ s, mkShape "Rectangle" ((i : ℚ) * (0.4 + 1.0)) [("D", "#123456")] r = some s →
        s ∈ (Figure.mk [.rect (5, 0) 4 protein_height "#123456"] (0, 19) (-1, 1.4) [0.2] ["A"]
          [("#123456", "D")]).shapes :=
  lane_geometry_and_axes [⟨"A", 5, 9, "D"⟩] ["A"] ["D"] "Rectangle" [("D", "#123456")]
    (Figure.mk [.rect (5, 0) 4 protein_height "#123456"] (0, 19) (-1, 1.4) [0.2] ["A"]
      [("#123456", "D")])
    (by with_unfolding_all decide)

/-- C9: the shape-drawing step never fails on a record whose domain is
missing from the color mapping: the shape is still built — with the fixed
default color `#1f77b4` — and drawn into the figure for the record's lane. -/
theorem missing_color_defaults_blue
    (shape : String)
    (hshape : shape = "Rectangle" ∨ shape = "Rounded Rectangle" ∨ shape = "Oval")
    (colors : List (String × String)) (r : FeatureRecord)
    (hmiss : colors.lookup r.domain = none)
    (filtered : List FeatureRecord) (P : List String) (i : Nat)
    (hi : i < P.length) (hr : r ∈ filtered) (hp : r.protein = P.get ⟨i, hi⟩) :
    ∃ s, mkShape shape ((i : ℚ) * (protein_height + protein_gap)) colors r = some s ∧
      s.color = "#1f77b4" ∧ s ∈ drawnShapes filtered P shape colors := by
  have hsome : ∃ s, mkShape shape ((i : ℚ) * (protein_height + protein_gap)) colors r =
      some s ∧ s.color = "#1f77b4" := by
    rcases hshape with h | h | h <;> subst h
    · refine ⟨.rect ((r.start : ℚ), (i : ℚ) * (protein_height + protein_gap))
        ((r.endPos : ℚ) - (r.start : ℚ)) protein_height "#1f77b4", ?_, rfl⟩
      simp [mkShape, hmiss]
    · refine ⟨.fancy ((r.start : ℚ), (i : ℚ) * (protein_height + protein_gap))
        ((r.endPos : ℚ) - (r.start : ℚ)) protein_height "#1f77b4", ?_, rfl⟩
      simp [mkShape, hmiss]
    · refine ⟨.ellipse (((r.start : ℚ) + (r.endPos : ℚ)) / 2,
          (i : ℚ) * (protein_height + protein_gap) + protein_height / 2)
        ((r.endPos : ℚ) - (r.start : ℚ)) protein_height "#1f77b4", ?_, rfl⟩
      simp [mkShape, hmiss]
  obtain ⟨s, hs, hc⟩ := hsome
  exact ⟨s, hs, hc, mem_drawnShapes hi hr hp hs⟩

/-- Witness for C9: the record's domain `D` has no entry in the color
mapping, yet its rectangle is drawn in default blue. -/
theorem missing_color_defaults_blue_witness :
    ∃ s, mkShape "Rectangle" ((0 : ℚ) * (protein_height + protein_gap))
        [("Other", "#000000")] ⟨"A", 1, 3, "D"⟩ = some s ∧
      s.color = "#1f77b4" ∧
      s ∈ drawnShapes [⟨"A", 1, 3, "D"⟩] ["A"] "Rectangle" [("Other", "#000000")] :=
  missing_color_defaults_blue "Rectangle" (Or.inl rfl) [("Other", "#000000")]
    ⟨"A", 1, 3, "D"⟩ (by decide) [⟨"A", 1, 3, "D"⟩] ["A"] 0
    (by decide) (by decide) (by decide)

theorem buildLegend_ok {colors : List (String × String)} {D : List String}
    (h : ∀ d ∈ D, (colors.lookup d).isSome) :
    ∃ L, buildLegend colors D = .ok L ∧ L.map Prod.snd = D ∧
      ∀ cd ∈ L, colors.lookup cd.2 = some cd.1 := by
  induction D with
  | nil => exact ⟨[], rfl, rfl, by simp⟩
  | cons d ds ih =>
    obtain ⟨c, hc⟩ := Option.isSome_iff_exists.mp (h d (List.mem_cons_self d ds))
    obtain ⟨L, hL, hsnd, hlook⟩ := ih (fun x hx => h x (List.mem_cons_of_mem _ hx))
    refine ⟨(c, d) :: L, ?_, ?_, ?_⟩
    · simp [buildLegend, hc, hL, Except.map]
    · simp [hsnd]
    · intro cd hcd
      rcases List.mem_cons.mp hcd with hcd | hcd
      · subst hcd
        exact hc
      · exact hlook cd hcd

theorem buildLegend_error {colors : List (String × String)} {D : List String}
    (hmiss : ∃ d ∈ D, colors.lookup d = none) :
    ∃ d ∈ D, colors.lookup d = none ∧ buildLegend colors D = .error d := by
  induction D with
  | nil =>
    rcases hmiss with ⟨d, hd, _⟩
    cases hd
  | cons q ds ih =>
    cases hq : colors.lookup q with
    | none => exact ⟨q, List.mem_cons_self q ds, hq, by simp [buildLegend, hq]⟩
    | some c =>
      have htail : ∃ d ∈ ds, colors.lookup d = none := by
        rcases hmiss with ⟨d, hd, hnone⟩
        rcases List.mem_cons.mp hd with hd | hd
        · subst hd
          rw [hq] at hnone
          cases hnone
        · exact ⟨d, hd, hnone⟩
      obtain ⟨d, hd, hnone, herr⟩ := ih htail
      exact ⟨d, List.mem_cons_of_mem _ hd, hnone,
        by simp [buildLegend, hq, herr, Except.map]⟩

/-- C10: with a nonempty filtered set, if every selected domain has a
color entry the figure is produced and its legend has exactly one entry
per selected domain (in order) carrying that domain's assigned color;
if some selected domain has no entry, the render fails with a KeyError
for a missing domain instead of producing a figure — even though the
shape-drawing step itself would have used the default color. -/
theorem legend_requires_all_colors
    (records : List FeatureRecord) (P D : List String) (shape : String)
    (colors : List (String × String))
    (hne : filterRecords records P D ≠ []) :
    ((∀ d ∈ D, (colors.lookup d).isSome) →
      ∃ f, plot_domains records P D shape colors = .figure f ∧
        f.legend.map Prod.snd = D ∧
        ∀ cd ∈ f.legend, colors.lookup cd.2 = some cd.1) ∧
    ((∃ d ∈ D, colors.lookup d = none) →
      ∃ d ∈ D, colors.lookup d = none ∧
        plot_domains records P D shape colors = .keyError d) := by
  have hemp : (filterRecords records P D).isEmpty = false := by simpa using hne
  constructor
  · intro hall
    obtain ⟨L, hL, hsnd, hlook⟩ := buildLegend_ok hall
    have hplot : plot_domains records P D shape colors = .figure
        { shapes := drawnShapes (filterRecords records P D) P shape colors
          xlim := (0, maxEnd (filterRecords records P D) + 10)
          ylim := (-protein_gap, (P.length : ℚ) * (protein_height + protein_gap))
          yticks := (List.range P.length).map
            (fun i => (i : ℚ) * (protein_height + protein_gap) + protein_height / 2)
          yticklabels := P
          legend := L } := by
      simp [plot_domains, hemp, hL]
    exact ⟨_, hplot, hsnd, hlook⟩
  · intro hmiss
    obtain ⟨d, hd, hnone, herr⟩ := buildLegend_error hmiss
    exact ⟨d, hd, hnone, by simp [plot_domains, hemp, herr]⟩

/-- Witness for C10: one matching record; domain `D` colored, domain `E`
selected but uncolored on the failing side. -/
theorem legend_requires_all_colors_witness :
    ((∀ d ∈ (["D", "E"] : List String), (([("D", "#111111")] :
        List (String × String)).lookup d).isSome) →
      ∃ f, plot_domains [⟨"A", 1, 3, "D"⟩] ["A"] ["D", "E"] "Rectangle"
          [("D", "#111111")] = .figure f ∧
        f.legend.map Prod.snd = ["D", "E"] ∧
        ∀ cd ∈ f.legend, ([("D", "#111111")] :
          List (String × String)).lookup cd.2 = some cd.1) ∧
    ((∃ d ∈ (["D", "E"] : List String), ([("D", "#111111")] :
        List (String × String)).lookup d = none) →
      ∃ d ∈ (["D", "E"] : List String), ([("D", "#111111")] :
          List (String × String)).lookup d = none ∧
        plot_domains [⟨"A", 1, 3, "D"⟩] ["A"] ["D", "E"] "Rectangle"
          [("D", "#111111")] = .keyError d) :=
  legend_requires_all_colors [⟨"A", 1, 3, "D"⟩] ["A"] ["D", "E"] "Rectangle"
    [("D", "#111111")] (by decide)

/-! ## Session color-state lemmas -/

theorem lookup_append (cs ds : List (String × String)) (k : String) :
    (cs ++ ds).lookup k = ((cs.lookup k).or (ds.lookup k)) := by
  induction cs with
  | nil => simp [List.lookup, Option.or]
  | cons p ps ih =>
    rcases p with ⟨a, b⟩
    rw [List.cons_append]
    by_cases hk : (k == a) = true
    · simp [List.lookup, hk, Option.or]
    · have hk' : (k == a) = false := Bool.eq_false_iff.mpr hk
      simp [List.lookup, hk', ih]

theorem ensure_colors_preserves (fresh : Nat → String) (sel : List String) :
    ∀ (cs : List (String × String)) (n : Nat) (k v : String),
      cs.lookup k = some v → (ensure_colors fresh cs sel n).lookup k = some v := by
  induction sel with
  | nil =>
    intro cs n k v h
    exact h
  | cons d ds ih =>
    intro cs n k v h
    unfold ensure_colors
    by_cases hd : (cs.lookup d).isSome
    · rw [if_pos hd]
      exact ih cs n k v h
    · rw [if_neg hd]
      refine ih _ _ k v ?_
      rw [lookup_append, h]
      rfl

theorem ensure_colors_lookup_isSome (fresh : Nat → String) (sel : List String) :
    ∀ (cs : List (String × String)) (n : Nat) (k : String),
      ((ensure_colors fresh cs sel n).lookup k).isSome →
        (cs.lookup k).isSome ∨ k ∈ sel := by
  induction sel with
  | nil =>
    intro cs n k h
    exact Or.inl h
  | cons d ds ih =>
    intro cs n k h
    unfold ensure_colors at h
    by_cases hd : (cs.lookup d).isSome
    · rw [if_pos hd] at h
      rcases ih cs n k h with h' | h'
      · exact Or.inl h'
      · exact Or.inr (List.mem_cons_of_mem _ h')
    · rw [if_neg hd] at h
      rcases ih _ _ k h with h' | h'
      · by_cases hk : k = d
        · exact Or.inr (hk ▸ List.mem_cons_self d ds)
        · left
          rw [lookup_append] at h'
          cases hcs : cs.lookup k with
          | some v => rfl
          | none =>
            rw [hcs] at h'
            have hkd : (k == d) = false := by simp [hk]
            have hnone : (([(d, fresh n)] : List (String × String)).lookup k) = none := by
              simp [List.lookup, hkd]
            rw [hnone] at h'
            cases h'
      · exact Or.inr (List.mem_cons_of_mem _ h')

/-! ## Claim theorem: session color state -/

/-- C6: the selection step of the per-session color assignment is monotone
and stable. Re-selecting the superset `[A, B, C]` over an existing state
`{A ↦ cA, B ↦ cB}` leaves both existing entries unchanged and appends
exactly one new entry, for `C`, with the next `random_color()` result;
in general the step never removes or overwrites an existing entry, and
every entry it creates is for a newly selected domain. -/
theorem domain_colors_monotone_stable
    (A B C cA cB : String) (fresh : Nat → String)
    (hAB : A ≠ B) (hAC : A ≠ C) (hBC : B ≠ C) :
    domain_colors_step fresh (some [(A, cA), (B, cB)]) [A, B, C] =
      [(A, cA), (B, cB), (C, fresh 0)] ∧
    (∀ (cs : List (String × String)) (sel : List String) (k v : String),
      cs.lookup k = some v →
        (domain_colors_step fresh (some cs) sel).lookup k = some v) ∧
    (∀ (cs : List (String × String)) (sel : List String) (k : String),
      ((domain_colors_step fresh (some cs) sel).lookup k).isSome →
        (cs.lookup k).isSome ∨ k ∈ sel) := by
  refine ⟨?_, ?_, ?_⟩
  · have h1 : (B == A) = false := by simp [Ne.symm hAB]
    have h2 : (C == A) = false := by simp [Ne.symm hAC]
    have h3 : (C == B) = false := by simp [Ne.symm hBC]
    unfold domain_colors_step ensure_colors
    simp [List.lookup, ensure_colors, h1, h2, h3]
  · intro cs sel k v h
    exact ensure_colors_preserves fresh sel cs 0 k v h
  · intro cs sel k h
    exact ensure_colors_lookup_isSome fresh sel cs 0 k h

/-- Witness for C6: re-selecting `["A", "B", "C"]` over `{A, B}` adds only
`C`'s entry. -/
theorem domain_colors_monotone_stable_witness :
    domain_colors_step (fun _ => "#cccccc")
        (some [("A", "#aaaaaa"), ("B", "#bbbbbb")]) ["A", "B", "C"] =
      [("A", "#aaaaaa"), ("B", "#bbbbbb"), ("C", "#cccccc")] :=
  (domain_colors_monotone_stable "A" "B" "C" "#aaaaaa" "#bbbbbb"
    (fun _ => "#cccccc") (by decide) (by decide) (by decide)).1
